import Mathlib

/-!
Verification of the duneuro-analytic-solution repository: a shallow embedding
of the analytic MEG forward solution (Sarvas 1987) from
duneuro-analytic-solution.hh, together with the buffer-validation logic of the
pybind11 binding layer in duneuro-analytic-solution.cc. The C++ scalar type
double is modelled by the real numbers.
-/

noncomputable section

/-- Coordinate embeds Dune FieldVector of dimension 3 over the scalar type:
three real components. -/
@[ext]
structure Coordinate where
  x : ℝ
  y : ℝ
  z : ℝ

namespace Coordinate

/-- Componentwise vector subtraction, as FieldVector operator minus. -/
instance : Sub Coordinate :=
  ⟨fun u v => ⟨u.x - v.x, u.y - v.y, u.z - v.z⟩⟩

/-- Scalar times vector, as FieldVector scalar multiplication. -/
instance : SMul ℝ Coordinate :=
  ⟨fun c v => ⟨c * v.x, c * v.y, c * v.z⟩⟩

/-- Vector divided by a scalar, as FieldVector operator slash by a scalar. -/
instance : HDiv Coordinate ℝ Coordinate :=
  ⟨fun v c => ⟨v.x / c, v.y / c, v.z / c⟩⟩

@[simp] theorem sub_x (u v : Coordinate) : (u - v).x = u.x - v.x := rfl
@[simp] theorem sub_y (u v : Coordinate) : (u - v).y = u.y - v.y := rfl
@[simp] theorem sub_z (u v : Coordinate) : (u - v).z = u.z - v.z := rfl
@[simp] theorem smul_x (c : ℝ) (v : Coordinate) : (c • v).x = c * v.x := rfl
@[simp] theorem smul_y (c : ℝ) (v : Coordinate) : (c • v).y = c * v.y := rfl
@[simp] theorem smul_z (c : ℝ) (v : Coordinate) : (c • v).z = c * v.z := rfl
@[simp] theorem div_x (v : Coordinate) (c : ℝ) : (v / c).x = v.x / c := rfl
@[simp] theorem div_y (v : Coordinate) (c : ℝ) : (v / c).y = v.y / c := rfl
@[simp] theorem div_z (v : Coordinate) (c : ℝ) : (v / c).z = v.z / c := rfl

/-- Dot product: the FieldVector operator star between two vectors. -/
def dot (u v : Coordinate) : ℝ :=
  u.x * v.x + u.y * v.y + u.z * v.z

/-- Euclidean norm: FieldVector two_norm, the square root of the sum of the
squared components. -/
def two_norm (v : Coordinate) : ℝ :=
  Real.sqrt (v.x * v.x + v.y * v.y + v.z * v.z)

end Coordinate

/-- Dipole embeds duneuro Dipole: an immutable position and moment pair, with
read-only accessors position and moment. -/
structure Dipole where
  position : Coordinate
  moment : Coordinate

/-- AnalyticSolutionMEG state: sphereCenter and scalingFactor are set by the
constructor; moment and R_0 are set by bind. The C++ members moment_ and R_0
are default-initialized before the first bind, so a freshly constructed
evaluator is modelled with arbitrary values in those two fields. -/
structure AnalyticSolutionMEG where
  sphereCenter : Coordinate
  scalingFactor : ℝ
  moment : Coordinate
  R_0 : Coordinate

namespace AnalyticSolutionMEG

/-- Cross product as in the source: the loop
crossProd[i] = vec_1[(i+1)%3] * vec_2[(i+2)%3] - vec_1[(i+2)%3] * vec_2[(i+1)%3]
unrolled at i = 0, 1, 2. -/
def crossProduct (vec_1 vec_2 : Coordinate) : Coordinate :=
  ⟨vec_1.y * vec_2.z - vec_1.z * vec_2.y,
   vec_1.z * vec_2.x - vec_1.x * vec_2.z,
   vec_1.x * vec_2.y - vec_1.y * vec_2.x⟩

/-- The bind method: R_0 = dipole.position() - sphereCenter_ and
moment_ = dipole.moment(); the configuration fields are untouched. -/
def bind (e : AnalyticSolutionMEG) (dipole : Dipole) : AnalyticSolutionMEG :=
  { e with R_0 := dipole.position - e.sphereCenter, moment := dipole.moment }

/-- The totalField method of the source, vector overload: the Sarvas
closed-form total magnetic field. -/
def totalField (e : AnalyticSolutionMEG) (coilPos : Coordinate) : Coordinate :=
  let R := coilPos - e.sphereCenter
  let A := R - e.R_0
  let r := R.two_norm
  let a := A.two_norm
  let F := a * (r * a + r * r - e.R_0.dot R)
  let grad_F := (a * a / r + A.dot R / a + 2 * (a + r)) • R -
      (a + 2 * r + A.dot R / a) • e.R_0
  (e.scalingFactor • ((F • crossProduct e.moment e.R_0) -
      ((crossProduct e.moment e.R_0).dot R) • grad_F)) / (F * F)

/-- The totalField method, scalar overload: totalField(coilPos) * direction. -/
def totalFieldDir (e : AnalyticSolutionMEG) (coilPos direction : Coordinate) : ℝ :=
  (totalField e coilPos).dot direction

/-- The primaryField method of the source, vector overload: it divides diff in
place by the cube of its norm and then returns scalingFactor times the cross
product of the moment with the rescaled diff. -/
def primaryField (e : AnalyticSolutionMEG) (coilPos : Coordinate) : Coordinate :=
  let R := coilPos - e.sphereCenter
  let diff := R - e.R_0
  let diffNorm := diff.two_norm
  let diffScaled := diff / (diffNorm * diffNorm * diffNorm)
  e.scalingFactor • crossProduct e.moment diffScaled

/-- The primaryField method, scalar overload: primaryField(coilPos) * direction. -/
def primaryFieldDir (e : AnalyticSolutionMEG) (coilPos direction : Coordinate) : ℝ :=
  (primaryField e coilPos).dot direction

/-- The secondaryField method, vector overload:
primaryField(coilPos) - totalField(coilPos). -/
def secondaryField (e : AnalyticSolutionMEG) (coilPos : Coordinate) : Coordinate :=
  primaryField e coilPos - totalField e coilPos

/-- The secondaryField method, scalar overload: computed as
primaryField(coilPos, direction) - totalField(coilPos, direction). -/
def secondaryFieldDir (e : AnalyticSolutionMEG) (coilPos direction : Coordinate) : ℝ :=
  primaryFieldDir e coilPos direction - totalFieldDir e coilPos direction

end AnalyticSolutionMEG

/-!
Spec-side definitions: the formulas as the specification text states them, to
be compared with the definitions translated from the source above.
-/

/-- Cross product as the spec words it: the right-handed three-component
formula with cyclic indices modulo 3. -/
def crossSpec (u v : Coordinate) : Coordinate :=
  ⟨u.y * v.z - u.z * v.y,
   u.z * v.x - u.x * v.z,
   u.x * v.y - u.y * v.x⟩

/-- Total field as the spec words it, as a function of the sphere center C,
the scaling factor s, the dipole moment Q, the dipole-relative position R_0
and the coil position. -/
def totalFieldSpec (C : Coordinate) (s : ℝ) (Q R_0 coilPos : Coordinate) :
    Coordinate :=
  let R := coilPos - C
  let A := R - R_0
  let r := R.two_norm
  let a := A.two_norm
  let F := a * (r * a + r * r - R_0.dot R)
  let grad_F := (a * a / r + A.dot R / a + 2 * (a + r)) • R -
      (a + 2 * r + A.dot R / a) • R_0
  (s • ((F • crossSpec Q R_0) - ((crossSpec Q R_0).dot R) • grad_F)) / (F * F)

/-- Primary field as the spec words it:
s times (Q cross (R - R_0)) divided by the cubed norm of (R - R_0). -/
def primaryFieldSpec (C : Coordinate) (s : ℝ) (Q R_0 coilPos : Coordinate) :
    Coordinate :=
  let R := coilPos - C
  (s • crossSpec Q (R - R_0)) / ((R - R_0).two_norm ^ 3)

/-- Total field with the scaling factor stripped: helper for the scaling
linearity claim. totalField equals scalingFactor smul this kernel. -/
def AnalyticSolutionMEG.totalFieldKernel (e : AnalyticSolutionMEG)
    (coilPos : Coordinate) : Coordinate :=
  let R := coilPos - e.sphereCenter
  let A := R - e.R_0
  let r := R.two_norm
  let a := A.two_norm
  let F := a * (r * a + r * r - e.R_0.dot R)
  let grad_F := (a * a / r + A.dot R / a + 2 * (a + r)) • R -
      (a + 2 * r + A.dot R / a) • e.R_0
  ((F • AnalyticSolutionMEG.crossProduct e.moment e.R_0) -
      ((AnalyticSolutionMEG.crossProduct e.moment e.R_0).dot R) • grad_F) / (F * F)

/-- Coordinate construction from a single scalar, exposed in the binding layer
as py init from one Scalar: the FieldVector constructor taking one scalar is
documented in dune-common as the constructor making a vector with identical
coordinates, filling every entry with the given value. -/
def coordinateFromScalar (s : ℝ) : Coordinate := ⟨s, s, s⟩

/-!
Model of the pybind11 buffer-validation logic of the Dipole constructor that
takes a single combined position and moment buffer
(duneuro-analytic-solution.cc, register_dipole). A python buffer is modelled
by its format string, its shape (whose length is the number of dimensions)
and its flat data; the scalar format_descriptor of double is the string d.
-/

/-- Format string of the C++ scalar type double in the python struct syntax. -/
def doubleFormat : String := "d"

/-- A python buffer as seen through py buffer_info: format string, shape list
(ndim is its length) and flat real data. -/
structure PyBuffer where
  format : String
  shape : List Nat
  data : List ℝ

/-- The combined-buffer Dipole constructor of register_dipole: checks the
element format, the number of dimensions and the entry count in source order,
raising a descriptive exception on each failure, then copies entries 0..2
into the position and entries 3..5 into the moment. -/
def dipoleFromCombinedBuffer (b : PyBuffer) : Except String Dipole :=
  if b.format ≠ doubleFormat then
    .error "buffer entries are of the wrong type"
  else if b.shape.length ≠ 1 then
    .error ("buffer has to consist of 1 dimension, but consists of " ++
      toString b.shape.length ++ " dimensions")
  else if b.shape.headD 0 ≠ 6 then
    .error ("buffer has to contain 6 entries, but contains " ++
      toString (b.shape.headD 0) ++ " entries")
  else
    .ok { position := ⟨b.data.getD 0 0, b.data.getD 1 0, b.data.getD 2 0⟩,
          moment := ⟨b.data.getD 3 0, b.data.getD 4 0, b.data.getD 5 0⟩ }

/-!
Helper lemmas shared by the claim theorems.
-/

open AnalyticSolutionMEG

theorem Coordinate.two_norm_nonneg (v : Coordinate) : 0 ≤ v.two_norm :=
  Real.sqrt_nonneg _

theorem Coordinate.two_norm_eq_zero_iff (v : Coordinate) :
    v.two_norm = 0 ↔ v.x = 0 ∧ v.y = 0 ∧ v.z = 0 := by
  unfold Coordinate.two_norm
  rw [Real.sqrt_eq_zero']
  constructor
  · intro h
    have hx : v.x * v.x = 0 := by
      nlinarith [mul_self_nonneg v.x, mul_self_nonneg v.y, mul_self_nonneg v.z]
    have hy : v.y * v.y = 0 := by
      nlinarith [mul_self_nonneg v.x, mul_self_nonneg v.y, mul_self_nonneg v.z]
    have hz : v.z * v.z = 0 := by
      nlinarith [mul_self_nonneg v.x, mul_self_nonneg v.y, mul_self_nonneg v.z]
    exact ⟨mul_self_eq_zero.mp hx, mul_self_eq_zero.mp hy, mul_self_eq_zero.mp hz⟩
  · rintro ⟨hx, hy, hz⟩
    rw [hx, hy, hz]
    norm_num

theorem totalField_eq_smul_kernel (e : AnalyticSolutionMEG) (p : Coordinate) :
    totalField e p = e.scalingFactor • totalFieldKernel e p := by
  ext <;>
    simp [totalField, totalFieldKernel, mul_div_assoc]

theorem kernel_ignores_scaling (c m r0 : Coordinate) (s s' : ℝ) (p : Coordinate) :
    totalFieldKernel ⟨c, s, m, r0⟩ p = totalFieldKernel ⟨c, s', m, r0⟩ p := rfl

/-- C1: totalField on an evaluator bound to a dipole returns exactly the
Sarvas expression stated in the spec, with the cross product given by the
right-handed componentwise formula. -/
theorem totalField_matches_spec (e : AnalyticSolutionMEG) (d : Dipole)
    (coilPos : Coordinate) :
    totalField (bind e d) coilPos =
      totalFieldSpec e.sphereCenter e.scalingFactor d.moment
        (d.position - e.sphereCenter) coilPos := rfl

/-- C2: primaryField on an evaluator bound to a dipole returns the infinite
homogeneous medium dipole field of the spec, and its denominator is zero
exactly when the coil position coincides with the dipole position. -/
theorem primaryField_matches_spec_and_degeneracy (e : AnalyticSolutionMEG)
    (d : Dipole) (coilPos : Coordinate) :
    primaryField (bind e d) coilPos =
      primaryFieldSpec e.sphereCenter e.scalingFactor d.moment
        (d.position - e.sphereCenter) coilPos
    ∧ (((coilPos - e.sphereCenter) - (bind e d).R_0).two_norm *
        ((coilPos - e.sphereCenter) - (bind e d).R_0).two_norm *
        ((coilPos - e.sphereCenter) - (bind e d).R_0).two_norm = 0 ↔
        coilPos = d.position) := by
  constructor
  · ext <;>
      simp only [primaryField, primaryFieldSpec, AnalyticSolutionMEG.bind,
        AnalyticSolutionMEG.crossProduct, crossSpec,
        Coordinate.sub_x, Coordinate.sub_y, Coordinate.sub_z,
        Coordinate.smul_x, Coordinate.smul_y, Coordinate.smul_z,
        Coordinate.div_x, Coordinate.div_y, Coordinate.div_z] <;>
      ring
  · constructor
    · intro h
      have hn : ((coilPos - e.sphereCenter) - (AnalyticSolutionMEG.bind e d).R_0).two_norm = 0 := by
        rcases mul_eq_zero.mp h with h' | h'
        · exact (mul_self_eq_zero).mp h'
        · exact h'
      rw [Coordinate.two_norm_eq_zero_iff] at hn
      obtain ⟨hx, hy, hz⟩ := hn
      simp only [AnalyticSolutionMEG.bind, Coordinate.sub_x, Coordinate.sub_y,
        Coordinate.sub_z] at hx hy hz
      ext
      · linarith
      · linarith
      · linarith
    · intro h
      have hn : ((coilPos - e.sphereCenter) - (AnalyticSolutionMEG.bind e d).R_0).two_norm = 0 := by
        rw [Coordinate.two_norm_eq_zero_iff]
        refine ⟨?_, ?_, ?_⟩ <;>
          simp only [AnalyticSolutionMEG.bind, Coordinate.sub_x, Coordinate.sub_y,
            Coordinate.sub_z, h] <;>
          ring
      rw [hn]
      ring

/-- C3: secondaryField is primaryField minus totalField in both overloads,
with the scalar overload computed as the difference of the two scalar
overloads, exactly as the definitions translated from the source state. -/
theorem secondaryField_is_primary_minus_total (e : AnalyticSolutionMEG)
    (p direction : Coordinate) :
    secondaryField e p = primaryField e p - totalField e p
    ∧ secondaryFieldDir e p direction =
        primaryFieldDir e p direction - totalFieldDir e p direction :=
  ⟨rfl, rfl⟩

/-- C4: the scalar overloads of totalField and primaryField are the dot
products of the corresponding vector overloads with the direction, for an
arbitrary direction vector. -/
theorem scalar_overloads_are_dot_products (e : AnalyticSolutionMEG)
    (p direction : Coordinate) :
    totalFieldDir e p direction = (totalField e p).dot direction
    ∧ primaryFieldDir e p direction = (primaryField e p).dot direction :=
  ⟨rfl, rfl⟩

/-- C6: bind sets R_0 to position minus sphereCenter and moment to the dipole
moment, leaves sphereCenter and scalingFactor unchanged, and binding twice
equals binding the second dipole alone, so field queries after two binds
depend only on the second dipole. -/
theorem bind_overwrites_state (e : AnalyticSolutionMEG) (d1 d2 : Dipole)
    (p direction : Coordinate) :
    (AnalyticSolutionMEG.bind e d2).R_0 = d2.position - e.sphereCenter
    ∧ (AnalyticSolutionMEG.bind e d2).moment = d2.moment
    ∧ (AnalyticSolutionMEG.bind e d2).sphereCenter = e.sphereCenter
    ∧ (AnalyticSolutionMEG.bind e d2).scalingFactor = e.scalingFactor
    ∧ AnalyticSolutionMEG.bind (AnalyticSolutionMEG.bind e d1) d2 =
        AnalyticSolutionMEG.bind e d2
    ∧ totalField (AnalyticSolutionMEG.bind (AnalyticSolutionMEG.bind e d1) d2) p =
        totalField (AnalyticSolutionMEG.bind e d2) p
    ∧ primaryField (AnalyticSolutionMEG.bind (AnalyticSolutionMEG.bind e d1) d2) p =
        primaryField (AnalyticSolutionMEG.bind e d2) p
    ∧ secondaryFieldDir (AnalyticSolutionMEG.bind (AnalyticSolutionMEG.bind e d1) d2) p direction =
        secondaryFieldDir (AnalyticSolutionMEG.bind e d2) p direction :=
  ⟨rfl, rfl, rfl, rfl, rfl, rfl, rfl, rfl⟩

/-- C10: the scalar constructor of Coordinate broadcasts its argument to all
three components. -/
theorem coordinateFromScalar_broadcasts (s : ℝ) :
    (coordinateFromScalar s).x = s
    ∧ (coordinateFromScalar s).y = s
    ∧ (coordinateFromScalar s).z = s :=
  ⟨rfl, rfl, rfl⟩

/-- C7: a 6-entry double buffer yields a Dipole whose position is the first
three entries and whose moment is the last three, while a buffer with wrong
element format, wrong number of dimensions or wrong entry count is rejected
with a descriptive error before any Dipole is produced. -/
theorem dipoleFromCombinedBuffer_ok_and_rejects
    (px py pz mx my mz : ℝ) (b : PyBuffer)
    (hb : b.format ≠ doubleFormat ∨ b.shape.length ≠ 1 ∨ b.shape.headD 0 ≠ 6) :
    (dipoleFromCombinedBuffer ⟨doubleFormat, [6], [px, py, pz, mx, my, mz]⟩ =
      .ok ⟨⟨px, py, pz⟩, ⟨mx, my, mz⟩⟩)
    ∧ ∃ msg, dipoleFromCombinedBuffer b = .error msg := by
  constructor
  · rfl
  · unfold dipoleFromCombinedBuffer
    by_cases h1 : b.format ≠ doubleFormat
    · rw [if_pos h1]
      exact ⟨_, rfl⟩
    · rw [if_neg h1]
      by_cases h2 : b.shape.length ≠ 1
      · rw [if_pos h2]
        exact ⟨_, rfl⟩
      · rw [if_neg h2]
        have h3 : b.shape.headD 0 ≠ 6 := by tauto
        rw [if_pos h3]
        exact ⟨_, rfl⟩

/-- Witness for C7: a concrete good buffer and a concrete buffer of the wrong
element format. -/
theorem dipoleFromCombinedBuffer_witness :
    (("i" : String) ≠ doubleFormat ∨ ([6] : List Nat).length ≠ 1 ∨
        ([6] : List Nat).headD 0 ≠ 6)
    ∧ ((dipoleFromCombinedBuffer ⟨doubleFormat, [6], [1, 2, 3, 4, 5, 6]⟩ =
        .ok ⟨⟨1, 2, 3⟩, ⟨4, 5, 6⟩⟩)
      ∧ ∃ msg, dipoleFromCombinedBuffer ⟨"i", [6], []⟩ = .error msg) :=
  ⟨by decide,
    dipoleFromCombinedBuffer_ok_and_rejects 1 2 3 4 5 6 ⟨"i", [6], []⟩ (by decide)⟩

theorem real_sqrt_four : Real.sqrt 4 = 2 := by
  rw [show (4 : ℝ) = 2 ^ 2 by norm_num, Real.sqrt_sq]
  norm_num

/-- C5 (amended): totalField is linear in the scaling factor provided the
first scaling factor is nonzero; with scaling factors s1 and s2 and both
evaluators bound to the same dipole over the same sphere center, the second
field is s2 over s1 times the first. -/
theorem totalField_scaling_linearity (C m1 r1 m2 r2 : Coordinate)
    (s1 s2 : ℝ) (d : Dipole) (p : Coordinate) (h1 : s1 ≠ 0) (h2 : s2 ≠ 0) :
    totalField (AnalyticSolutionMEG.bind ⟨C, s2, m2, r2⟩ d) p =
      (s2 / s1) • totalField (AnalyticSolutionMEG.bind ⟨C, s1, m1, r1⟩ d) p := by
  rw [totalField_eq_smul_kernel, totalField_eq_smul_kernel]
  have hk : totalFieldKernel (AnalyticSolutionMEG.bind ⟨C, s1, m1, r1⟩ d) p =
      totalFieldKernel (AnalyticSolutionMEG.bind ⟨C, s2, m2, r2⟩ d) p := rfl
  rw [hk]
  ext <;>
    simp only [AnalyticSolutionMEG.bind, Coordinate.smul_x, Coordinate.smul_y,
      Coordinate.smul_z] <;>
    rw [← mul_assoc, div_mul_cancel₀ _ h1]

/-- Witness for C5 (amended): concrete scaling factors 1 and 2. -/
theorem totalField_scaling_linearity_witness :
    ((1 : ℝ) ≠ 0 ∧ (2 : ℝ) ≠ 0)
    ∧ totalField (AnalyticSolutionMEG.bind ⟨⟨0, 0, 0⟩, 2, ⟨0, 0, 0⟩, ⟨0, 0, 0⟩⟩
          ⟨⟨0, 0, 1⟩, ⟨1, 0, 0⟩⟩) ⟨0, 0, 2⟩ =
        ((2 : ℝ) / 1) • totalField (AnalyticSolutionMEG.bind ⟨⟨0, 0, 0⟩, 1, ⟨0, 0, 0⟩, ⟨0, 0, 0⟩⟩
          ⟨⟨0, 0, 1⟩, ⟨1, 0, 0⟩⟩) ⟨0, 0, 2⟩ :=
  ⟨⟨by norm_num, by norm_num⟩,
    totalField_scaling_linearity ⟨0, 0, 0⟩ ⟨0, 0, 0⟩ ⟨0, 0, 0⟩ ⟨0, 0, 0⟩ ⟨0, 0, 0⟩
      1 2 ⟨⟨0, 0, 1⟩, ⟨1, 0, 0⟩⟩ ⟨0, 0, 2⟩ (by norm_num) (by norm_num)⟩

/-- Counterexample for C5 as stated: with s1 = 0 and s2 = 1 the claimed
identity fails at a concrete dipole and coil position, since the left side is
a nonzero field while dividing by s1 = 0 annihilates the right side. -/
theorem totalField_scaling_counterexample :
    ¬ (totalField (AnalyticSolutionMEG.bind ⟨⟨0, 0, 0⟩, 1, ⟨0, 0, 0⟩, ⟨0, 0, 0⟩⟩
          ⟨⟨0, 0, 1⟩, ⟨1, 0, 0⟩⟩) ⟨0, 0, 2⟩ =
        ((1 : ℝ) / 0) • totalField (AnalyticSolutionMEG.bind ⟨⟨0, 0, 0⟩, 0, ⟨0, 0, 0⟩, ⟨0, 0, 0⟩⟩
          ⟨⟨0, 0, 1⟩, ⟨1, 0, 0⟩⟩) ⟨0, 0, 2⟩) := by
  intro h
  have hy := congrArg Coordinate.y h
  simp only [totalField, AnalyticSolutionMEG.bind, AnalyticSolutionMEG.crossProduct,
    Coordinate.dot, Coordinate.two_norm,
    Coordinate.sub_x, Coordinate.sub_y, Coordinate.sub_z,
    Coordinate.smul_x, Coordinate.smul_y, Coordinate.smul_z,
    Coordinate.div_x, Coordinate.div_y, Coordinate.div_z] at hy
  norm_num [real_sqrt_four, Real.sqrt_one] at hy
